import Mathlib

/-!
Verification development for the audio editing pipeline of src/app.py.

The application keeps decoded PCM audio in pydub AudioSegment values and
wires user actions to pydub operations.  This file gives a shallow
embedding of that pipeline: the buffer model, the session actions the app
performs (trim, combined effects, normalization, fade, export) and the two
analysis views (waveform plot, spectrum plot).  Operations whose signal
internals the repository delegates to the external pydub library without
depending on their behaviour (resampling, IIR filtering, fades,
compression) are quantified over as an explicit record of external
functions; the pydub functions whose exact arithmetic the repository does
depend on (normalize, apply_gain via audioop.mul, len, slicing) are
embedded from the pinned pydub 0.25.1 sources.  Floating point arithmetic
of the source is idealized as exact rational or real arithmetic.
-/

namespace AudioApp

/-- PCM audio buffer mirroring a pydub AudioSegment: interleaved signed
integer samples, channel count, sample width in bytes, frame rate in Hz. -/
structure Audio where
  samples : List ℤ
  channels : ℕ
  sampleWidth : ℕ
  frameRate : ℤ
deriving DecidableEq

/-- Streamlit session slots of app.py that the editing actions touch: the
loaded buffer and the edited buffer. -/
structure Session where
  audio : Audio
  edited : Option Audio
deriving DecidableEq

/-- External pydub operations that app.py calls but whose resampling,
filtering, fade and compression internals are outside the modelled core;
the theorems below quantify over every implementation of them. -/
structure PydubExt where
  fadeIn : Audio → ℤ → Audio
  fadeOut : Audio → ℤ → Audio
  setFrameRate : Audio → ℤ → Audio
  highPassFilter : Audio → ℤ → Audio
  lowPassFilter : Audio → ℤ → Audio
  compressDynamicRange : Audio → ℚ → ℚ → Audio

/-- Python int() truncation toward zero on a rational. -/
def truncInt (q : ℚ) : ℤ := if 0 ≤ q then ⌊q⌋ else -⌊-q⌋

/-- Python round() on a rational: round half to even. -/
def roundHalfEven (q : ℚ) : ℤ :=
  if q - Rat.floor q < 1 / 2 then Rat.floor q
  else if 1 / 2 < q - Rat.floor q then Rat.floor q + 1
  else if Rat.floor q % 2 = 0 then Rat.floor q else Rat.floor q + 1

/-- Frame count of a buffer, pydub frame_count(): len(data) // frame_width,
with one list entry per sample and frame_width = channels samples. -/
def frameCount (a : Audio) : ℚ := ((a.samples.length / a.channels : ℕ) : ℚ)

/-- pydub len(seg): the duration in whole milliseconds,
round(frame_count() / frame_rate * 1000). -/
def pydubLen (a : Audio) : ℤ := roundHalfEven (frameCount a / (a.frameRate : ℚ) * 1000)

/-- get_audio_duration of app.py: len(audio) / 1000.0. -/
def get_audio_duration (a : Audio) : ℚ := (pydubLen a : ℚ) / 1000

/-- Mean of consecutive channel pairs, numpy reshape((-1, 2)).mean(axis=1)
applied to an interleaved stereo sample list. -/
def pairMean : List ℤ → List ℚ
  | a :: b :: rest => ((a : ℚ) + (b : ℚ)) / 2 :: pairMean rest
  | _ => []

/-- Mono amplitude stream computed by plot_waveform of app.py: channel
averaged when the buffer is stereo, the raw samples otherwise. -/
def monoSamples (a : Audio) : List ℚ :=
  if a.channels = 2 then pairMean a.samples else a.samples.map Int.cast

/-- Python and numpy strided slicing xs[::s]: the elements at indices
0, s, 2 s, ..., of which there are ceil(len / s) many. -/
def everyNth (s : ℕ) (xs : List ℚ) : List ℚ :=
  (List.range ((xs.length + s - 1) / s)).map (fun i => xs.getD (i * s) 0)

/-- plot_waveform of app.py: the mono samples, downsampled by the uniform
stride len // 50000 when there are more than 50000 of them. -/
def plot_waveform (a : Audio) : List ℚ :=
  if 50000 < (monoSamples a).length then
    everyNth ((monoSamples a).length / 50000) (monoSamples a)
  else monoSamples a

/-- numpy fft.fftfreq(n, 1/44100) at index k, with the hardcoded sample
spacing d = 1/44100 that app.py passes: index k maps to k for
k < (n + 1) / 2 and to k - n beyond, divided by d * n. -/
def fftfreqAt (n k : ℕ) : ℚ :=
  ((if k < (n + 1) / 2 then (k : ℤ) else (k : ℤ) - n : ℤ) : ℚ) / ((1 / 44100 : ℚ) * n)

/-- Discrete Fourier transform coefficient of a sample list, the value
numpy fft.fft computes at index k. -/
noncomputable def dftCoeff (xs : List ℤ) (k : ℕ) : ℂ :=
  (Finset.range xs.length).sum
    (fun j => ((xs.getD j 0 : ℤ) : ℂ) *
      Complex.exp (-(2 * (Real.pi : ℂ) * Complex.I * (j : ℂ) * (k : ℂ)) / (xs.length : ℂ)))

/-- Magnitude of the DFT coefficient, numpy abs of the fft output. -/
noncomputable def dftMag (xs : List ℤ) (k : ℕ) : ℝ := Complex.abs (dftCoeff xs k)

/-- Spectrum plot data of app.py: for a nonempty buffer, the first
min(len, 44100) samples are transformed, and indices 0 ≤ k < n / 2 are
plotted as the pair of fftfreq(n, 1/44100)[k] and abs(fft)[k]. -/
noncomputable def spectrumPairs (a : Audio) : List (ℚ × ℝ) :=
  if a.samples.length = 0 then []
  else
    (List.range ((a.samples.take 44100).length / 2)).map
      (fun k => (fftfreqAt (a.samples.take 44100).length k,
                 dftMag (a.samples.take 44100) k))

/-- pydub db_to_float: 10 ** (db / 20). -/
noncomputable def db_to_float (db : ℝ) : ℝ := (10 : ℝ) ^ (db / 20)

/-- pydub ratio_to_db: 20 * log10 of the ratio. -/
noncomputable def ratio_to_db (r : ℝ) : ℝ := 20 * Real.logb 10 r

/-- audioop fbound for a sample width of w bytes: clamp to the signed
range, values below minval + 1 going to minval, then floor. -/
noncomputable def fbound (w : ℕ) (v : ℝ) : ℤ :=
  if (((2 : ℤ) ^ (8 * w - 1) - 1 : ℤ) : ℝ) < v then (2 : ℤ) ^ (8 * w - 1) - 1
  else if v < ((-(2 : ℤ) ^ (8 * w - 1) + 1 : ℤ) : ℝ) then -(2 : ℤ) ^ (8 * w - 1)
  else ⌊v⌋

/-- pydub apply_gain: audioop.mul of every sample by db_to_float(db). -/
noncomputable def apply_gain (a : Audio) (db : ℝ) : Audio :=
  { a with samples :=
      a.samples.map (fun (s : ℤ) => fbound a.sampleWidth ((s : ℝ) * db_to_float db)) }

/-- pydub AudioSegment.max via audioop.max: maximum absolute sample value. -/
def segMax (a : Audio) : ℕ := a.samples.foldl (fun m s => max m s.natAbs) 0

/-- pydub max_possible_amplitude: 2 ** (8 * sample_width) / 2. -/
def maxPossibleAmp (a : Audio) : ℕ := 2 ^ (8 * a.sampleWidth) / 2

/-- pydub effects.normalize of version 0.25.1: a silent buffer is returned
unchanged, otherwise the gain that brings the peak to
max_possible_amplitude * db_to_float(-headroom) is applied. -/
noncomputable def normalize (a : Audio) (headroom : ℚ) : Audio :=
  if segMax a = 0 then a
  else apply_gain a
    (ratio_to_db ((maxPossibleAmp a : ℝ) * db_to_float (-(headroom : ℝ)) / (segMax a : ℝ)))

/-- apply_normalization of app.py: normalize(audio, headroom=target_dBFS). -/
noncomputable def apply_normalization (a : Audio) (target : ℚ) : Audio :=
  normalize a target

/-- Gain stage of the effects tab: skipped when the slider is 0, otherwise
pydub addition of volume_change decibels. -/
noncomputable def gainStage (a : Audio) (v : ℚ) : Audio :=
  if v ≠ 0 then apply_gain a (v : ℝ) else a

/-- Speed stage of the effects tab: skipped at factor 1, otherwise a spawn
with the frame rate overridden to int(rate * factor) followed by the
external set_frame_rate back to the original rate. -/
def speedStage (ext : PydubExt) (a : Audio) (f : ℚ) : Audio :=
  if f ≠ 1 then
    ext.setFrameRate { a with frameRate := truncInt ((a.frameRate : ℚ) * f) } a.frameRate
  else a

/-- High pass stage of the effects tab: applied only when the cutoff
slider exceeds 20 Hz. -/
def hpStage (ext : PydubExt) (a : Audio) (hp : ℤ) : Audio :=
  if 20 < hp then ext.highPassFilter a hp else a

/-- Low pass stage of the effects tab: applied only when the cutoff slider
is below 20000 Hz. -/
def lpStage (ext : PydubExt) (a : Audio) (lp : ℤ) : Audio :=
  if lp < 20000 then ext.lowPassFilter a lp else a

/-- Combined effects action of app.py in source order: gain, then speed,
then high pass, then low pass. -/
noncomputable def applyEffects (ext : PydubExt) (a : Audio) (v f : ℚ) (hp lp : ℤ) : Audio :=
  lpStage ext (hpStage ext (speedStage ext (gainStage a v) f) hp) lp

/-- apply_fade of app.py: external fade_in over int(duration * 1000)
milliseconds when positive, then external fade_out likewise. -/
def apply_fade (ext : PydubExt) (a : Audio) (fadeInDur fadeOutDur : ℚ) : Audio :=
  let a1 := if 0 < fadeInDur then ext.fadeIn a (truncInt (fadeInDur * 1000)) else a
  if 0 < fadeOutDur then ext.fadeOut a1 (truncInt (fadeOutDur * 1000)) else a1

/-- pydub _parse_position: negative positions count from the end, then
milliseconds are converted to a truncated frame index. -/
def parsePosition (a : Audio) (ms : ℚ) : ℤ :=
  truncInt ((if ms < 0 then (pydubLen a : ℚ) + ms else ms) * (a.frameRate : ℚ) / 1000)

/-- pydub millisecond slicing seg[sMs:eMs]: both endpoints are clamped to
len(seg), converted to frame indices, and the sample window between them
is kept. -/
def sliceMs (a : Audio) (sMs eMs : ℚ) : Audio :=
  let i := (parsePosition a (min sMs (pydubLen a : ℚ)) * (a.channels : ℤ)).toNat
  let j := (parsePosition a (min eMs (pydubLen a : ℚ)) * (a.channels : ℤ)).toNat
  { a with samples := (a.samples.take j).drop i }

/-- Error text shown by the trim tab of app.py. -/
def trimErrorMsg : String := "Start time must be less than end time"

/-- Trim tab action of app.py: when start < end the edited slot receives
audio[start * 1000 : end * 1000], otherwise an error message is shown and
the session is untouched. -/
def trimAction (sess : Session) (startS endS : ℚ) : Session × Option String :=
  if startS < endS then
    ({ sess with edited := some (sliceMs sess.audio (startS * 1000) (endS * 1000)) }, none)
  else (sess, some trimErrorMsg)

/-- Effects tab action of app.py: the edited slot receives the combined
effects result. -/
noncomputable def effectsAction (ext : PydubExt) (sess : Session) (v f : ℚ) (hp lp : ℤ) :
    Session :=
  { sess with edited := some (applyEffects ext sess.audio v f hp lp) }

/-- Normalize tab action of app.py: apply_normalization, followed by the
external compress_dynamic_range when the checkbox is set. -/
noncomputable def normalizeAction (ext : PydubExt) (sess : Session) (target : ℚ)
    (compressOn : Bool) (thr ratio : ℚ) : Session :=
  let e1 := apply_normalization sess.audio target
  let e2 := if compressOn then ext.compressDynamicRange e1 thr ratio else e1
  { sess with edited := some e2 }

/-- Fade tab action of app.py: the edited slot receives the faded buffer. -/
def fadeAction (ext : PydubExt) (sess : Session) (fadeInDur fadeOutDur : ℚ) : Session :=
  { sess with edited := some (apply_fade ext sess.audio fadeInDur fadeOutDur) }

/-- Download link data produced by get_download_link of app.py. -/
structure DownloadLink where
  mime : String
  fileExt : String
  bitrate : Option String
deriving DecidableEq

/-- get_download_link of app.py: only the mp3 and wav branches assign a
mime type; any other format leaves the local variable unassigned so the
function raises an unhandled UnboundLocalError, modelled as none. -/
def get_download_link (a : Audio) (filename fmt : String) : Option DownloadLink :=
  if fmt = "mp3" then some ⟨"audio/mpeg", "mp3", some ("192k")⟩
  else if fmt = "wav" then some ⟨"audio/wav", "wav", none⟩
  else none

/-- Concrete mono 16 bit buffer used to instantiate theorems. -/
def demoTone : Audio := ⟨[0, 1000, -1000], 1, 2, 44100⟩

/-- Concrete session holding demoTone with no edit yet. -/
def demoSession : Session := ⟨demoTone, none⟩

/-- Identity instantiation of the external pydub operations, used to
instantiate universally quantified theorems. -/
def idExt : PydubExt :=
  ⟨fun a _ => a, fun a _ => a, fun a _ => a, fun a _ => a, fun a _ => a, fun a _ _ => a⟩

/-- Buffer of a single frame at 44100 Hz, shorter than one millisecond. -/
def oneFrame : Audio := ⟨[0], 1, 2, 44100⟩

/-- Mono buffer of 50001 zero samples, one more than the waveform plot
downsampling threshold. -/
def longBuf : Audio := ⟨List.replicate 50001 0, 1, 2, 44100⟩

/-- Short mono buffer at the hardcoded 44100 Hz rate. -/
def shortBuf : Audio := ⟨[1, 2, 3, 4], 1, 2, 44100⟩

/-- Short mono buffer at 22050 Hz, a rate different from the hardcoded
44100 Hz of the spectrum code. -/
def offRateBuf : Audio := ⟨[1, 2, 3, 4], 1, 2, 22050⟩

/-- Mono 16 bit buffer whose single sample sits 12 dB below full scale. -/
def loudBuf : Audio := ⟨[8192], 1, 2, 44100⟩

/-- C5: the trim action fails exactly when the end time is not after the
start time, and on failure the session is untouched and the shown message
is the one naming the violated constraint. -/
theorem trim_invalid_range (sess : Session) (startS endS : ℚ) :
    ((trimAction sess startS endS).2.isSome ↔ endS ≤ startS) ∧
    (endS ≤ startS →
      (trimAction sess startS endS).1 = sess ∧
      (trimAction sess startS endS).2 = some trimErrorMsg) := by
  rw [trimAction]
  by_cases h : startS < endS
  · rw [if_pos h]
    constructor
    · simp only [Option.isSome_none, Bool.false_eq_true, false_iff, not_le]
      exact h
    · intro hc
      exact absurd h (not_lt.mpr hc)
  · rw [if_neg h]
    exact ⟨by simp [not_lt.mp h], fun _ => ⟨rfl, rfl⟩⟩

/-- Witness for trim_invalid_range at the concrete session demoSession
with start 2 and end 1. -/
theorem trim_invalid_range_witness :
    (trimAction demoSession 2 1).1 = demoSession ∧
    (trimAction demoSession 2 1).2 = some trimErrorMsg :=
  (trim_invalid_range demoSession 2 1).2 (by norm_num)

/-- C6 counterexample: requesting the ogg format does not succeed; the
function reaches the end with the mime variable unassigned. -/
theorem export_ogg_crashes :
    get_download_link demoTone ("clip") ("ogg") = none := by
  rfl

/-- C6 amended: exporting succeeds exactly for the formats mp3 and wav,
with the mime types audio/mpeg and audio/wav; every other format makes
the function fail with an unhandled error rather than a dedicated
UnsupportedFormat error. -/
theorem export_supported_formats (a : Audio) (filename fmt : String) :
    ((get_download_link a filename fmt).isSome ↔ fmt = "mp3" ∨ fmt = "wav") ∧
    get_download_link a filename ("mp3") = some ⟨"audio/mpeg", "mp3", some ("192k")⟩ ∧
    get_download_link a filename ("wav") = some ⟨"audio/wav", "wav", none⟩ := by
  refine ⟨?_, rfl, rfl⟩
  rw [get_download_link]
  split_ifs with h1 h2
  · simp [h1]
  · simp [h2]
  · simp [h1, h2]

/-- Witness for export_supported_formats: the mp3 format succeeds on the
concrete buffer demoTone. -/
theorem export_supported_formats_witness :
    (get_download_link demoTone ("clip") ("mp3")).isSome :=
  ((export_supported_formats demoTone ("clip") ("mp3")).1).mpr (Or.inl rfl)

/-- C7: the gain stage with a slider value of 0 dB is skipped, so the
result is the input buffer itself. -/
theorem gain_zero_identity (a : Audio) : gainStage a 0 = a := by
  rw [gainStage]
  simp

/-- C8: each editing action of app.py writes only the edited slot; the
loaded buffer of the session, with its samples, channel count, sample
rate and sample width, is unchanged by trim, combined effects,
normalization with optional compression, and fade. -/
theorem operations_preserve_original (ext : PydubExt) (sess : Session)
    (startS endS v f target thr ratio fadeInDur fadeOutDur : ℚ) (hp lp : ℤ)
    (compressOn : Bool) :
    ((trimAction sess startS endS).1.audio = sess.audio) ∧
    ((effectsAction ext sess v f hp lp).audio = sess.audio) ∧
    ((normalizeAction ext sess target compressOn thr ratio).audio = sess.audio) ∧
    ((fadeAction ext sess fadeInDur fadeOutDur).audio = sess.audio) := by
  refine ⟨?_, rfl, rfl, rfl⟩
  rw [trimAction]
  split_ifs <;> rfl

/-- C9: the combined effects action applies the selected effects in the
fixed order gain, speed, high pass, low pass; each stage at its neutral
parameter is skipped entirely, and with all parameters neutral the result
is the input buffer. -/
theorem effects_order_and_neutral_skips (ext : PydubExt) (a b : Audio) (v f : ℚ)
    (hp lp : ℤ) :
    (applyEffects ext a v f hp lp =
      lpStage ext (hpStage ext (speedStage ext (gainStage a v) f) hp) lp) ∧
    (v = 0 → gainStage b v = b) ∧
    (f = 1 → speedStage ext b f = b) ∧
    (hp ≤ 20 → hpStage ext b hp = b) ∧
    (20000 ≤ lp → lpStage ext b lp = b) ∧
    (v = 0 → f = 1 → hp ≤ 20 → 20000 ≤ lp → applyEffects ext a v f hp lp = a) := by
  refine ⟨rfl, ?_, ?_, ?_, ?_, ?_⟩
  · rintro rfl
    simp [gainStage]
  · rintro rfl
    simp [speedStage]
  · intro h
    rw [hpStage, if_neg (not_lt.mpr h)]
  · intro h
    rw [lpStage, if_neg (not_lt.mpr h)]
  · rintro rfl rfl h1 h2
    rw [applyEffects]
    simp [gainStage, speedStage, hpStage, lpStage, not_lt.mpr h1, not_lt.mpr h2]

/-- Witness for effects_order_and_neutral_skips: with the identity
external operations and all sliders neutral, the effects action returns
demoTone unchanged. -/
theorem effects_neutral_witness :
    applyEffects idExt demoTone 0 1 20 20000 = demoTone :=
  (effects_order_and_neutral_skips idExt demoTone demoTone 0 1 20 20000).2.2.2.2.2
    rfl rfl (by norm_num) (by norm_num)

/-- C10: the mp3 export always uses the fixed bitrate 192k with mime type
audio/mpeg, and the wav export has mime type audio/wav and no bitrate
argument; get_download_link exposes no way to change either. -/
theorem export_fixed_bitrate_and_mime (a : Audio) (filename : String) :
    get_download_link a filename ("mp3") = some ⟨"audio/mpeg", "mp3", some ("192k")⟩ ∧
    get_download_link a filename ("wav") = some ⟨"audio/wav", "wav", none⟩ :=
  ⟨rfl, rfl⟩

/-- Length of the strided slice: ceil(len / s) elements. -/
theorem everyNth_length (s : ℕ) (xs : List ℚ) :
    (everyNth s xs).length = (xs.length + s - 1) / s := by
  simp [everyNth]

/-- The mono stream of the 50001 sample buffer has 50001 entries. -/
theorem monoSamples_longBuf_length : (monoSamples longBuf).length = 50001 := by
  have hch : longBuf.channels = 1 := rfl
  have hsam : longBuf.samples.length = 50001 := by
    show (List.replicate 50001 (0 : ℤ)).length = 50001
    exact List.length_replicate _ _
  rw [monoSamples, if_neg (by rw [hch]; decide)]
  simp [hsam]

/-- C3 counterexample: a mono buffer of 50001 samples exceeds the 50000
point threshold, the stride becomes 50001 / 50000 = 1, and the plot keeps
all 50001 points, more than max_points. -/
theorem waveform_exceeds_max_points :
    ¬ (plot_waveform longBuf).length ≤ 50000 := by
  have hm : (monoSamples longBuf).length = 50001 := monoSamples_longBuf_length
  rw [plot_waveform, if_pos (by rw [hm]; norm_num)]
  rw [everyNth_length, hm]
  norm_num

/-- C3 amended: when the mono sample count n exceeds 50000 the plot is the
stride n / 50000 slice keeping the first sample of each window, of length
ceil(n / stride), which is bounded by 2 * 50000 - 1 = 99999 but can exceed
50000; the computation is a pure function of the buffer. -/
theorem waveform_downsample_amended (a : Audio)
    (h : 50000 < (monoSamples a).length) :
    plot_waveform a = everyNth ((monoSamples a).length / 50000) (monoSamples a) ∧
    (plot_waveform a).length =
      ((monoSamples a).length + (monoSamples a).length / 50000 - 1) /
        ((monoSamples a).length / 50000) ∧
    (plot_waveform a).length ≤ 99999 := by
  have h1 : plot_waveform a = everyNth ((monoSamples a).length / 50000) (monoSamples a) := by
    rw [plot_waveform, if_pos h]
  refine ⟨h1, by rw [h1, everyNth_length], ?_⟩
  rw [h1, everyNth_length]
  set n := (monoSamples a).length with hn
  have hs : 1 ≤ n / 50000 := (Nat.one_le_div_iff (by norm_num)).mpr (le_of_lt h)
  have hmod := Nat.div_add_mod n 50000
  have hmlt : n % 50000 < 50000 := Nat.mod_lt _ (by norm_num)
  have hlt : n + n / 50000 - 1 < 100000 * (n / 50000) := by omega
  have h2 : (n + n / 50000 - 1) / (n / 50000) < 100000 :=
    (Nat.div_lt_iff_lt_mul (Nat.lt_of_lt_of_le Nat.one_pos hs)).mpr hlt
  omega

/-- Witness for waveform_downsample_amended at the concrete 50001 sample
buffer longBuf. -/
theorem waveform_downsample_witness :
    plot_waveform longBuf =
      everyNth ((monoSamples longBuf).length / 50000) (monoSamples longBuf) ∧
    (plot_waveform longBuf).length =
      ((monoSamples longBuf).length + (monoSamples longBuf).length / 50000 - 1) /
        ((monoSamples longBuf).length / 50000) ∧
    (plot_waveform longBuf).length ≤ 99999 :=
  waveform_downsample_amended longBuf (by rw [monoSamples_longBuf_length]; norm_num)

/-- Round half to even differs from its argument by at most one half. -/
theorem roundHalfEven_sub_le (q : ℚ) : |(roundHalfEven q : ℚ) - q| ≤ 1 / 2 := by
  have hfl : ((Rat.floor q : ℚ)) ≤ q := Rat.le_floor.mp le_rfl
  have hlt : q < Rat.floor q + 1 := by
    by_contra hc
    push_neg at hc
    have h2 : ((Rat.floor q + 1 : ℤ) : ℚ) ≤ q := by push_cast; exact hc
    have := Rat.le_floor.mpr h2
    omega
  rw [roundHalfEven]
  split_ifs with h1 h2 h3 <;> rw [abs_le] <;> constructor <;> push_cast <;> linarith

/-- C4 counterexample: a buffer of a single frame at 44100 Hz lasts
1/44100 seconds, but get_audio_duration reports 0 because pydub len
rounds the duration to whole milliseconds. -/
theorem duration_rounding_counterexample :
    get_audio_duration oneFrame = 0 ∧
    frameCount oneFrame / (oneFrame.frameRate : ℚ) = 1 / 44100 ∧
    get_audio_duration oneFrame ≠ frameCount oneFrame / (oneFrame.frameRate : ℚ) := by
  have hx : frameCount oneFrame / (oneFrame.frameRate : ℚ) = 1 / 44100 := by
    norm_num [frameCount, oneFrame]
  have hq : frameCount oneFrame / (oneFrame.frameRate : ℚ) * 1000 = 1000 / 44100 := by
    rw [hx]; norm_num
  have hfl : Rat.floor (1000 / 44100 : ℚ) = 0 := by
    have h1 : (0 : ℤ) ≤ Rat.floor (1000 / 44100 : ℚ) := Rat.le_floor.mpr (by norm_num)
    have h2 : Rat.floor (1000 / 44100 : ℚ) < 1 := by
      by_contra hc
      push_neg at hc
      have h3 := Rat.le_floor.mp hc
      norm_num at h3
    omega
  have hlen : pydubLen oneFrame = 0 := by
    rw [pydubLen, hq, roundHalfEven, hfl]
    norm_num
  have hdur : get_audio_duration oneFrame = 0 := by
    rw [get_audio_duration, hlen]
    norm_num
  exact ⟨hdur, hx, by rw [hdur, hx]; norm_num⟩

/-- C4 amended: get_audio_duration returns the duration rounded to whole
milliseconds and divided by 1000, hence within 1/2000 seconds of the
exact rational frame_count / sample_rate, not that exact value itself. -/
theorem duration_millisecond_bound (a : Audio) :
    |get_audio_duration a - frameCount a / (a.frameRate : ℚ)| ≤ 1 / 2000 := by
  have h := roundHalfEven_sub_le (frameCount a / (a.frameRate : ℚ) * 1000)
  rw [get_audio_duration, pydubLen]
  set r : ℤ := roundHalfEven (frameCount a / (a.frameRate : ℚ) * 1000) with hr
  set x : ℚ := frameCount a / (a.frameRate : ℚ) with hx
  have e : (r : ℚ) / 1000 - x = ((r : ℚ) - x * 1000) / 1000 := by ring
  rw [e, abs_div]
  have h1000 : |(1000 : ℚ)| = 1000 := by norm_num
  rw [h1000]
  linarith [h]

/-- C2 counterexample: on a 4 sample buffer at 22050 Hz the plotted
frequencies are 0 and 11025 Hz, computed from the hardcoded 44100 Hz
spacing, while bins derived from the rate of the buffer itself would be 0
and 22050 / 4 = 5512.5 Hz. -/
theorem spectrum_rate_counterexample :
    (spectrumPairs offRateBuf).map Prod.fst = [0, 11025] ∧
    (List.range ((offRateBuf.samples.take 44100).length / 2)).map
        (fun (k : ℕ) => (k : ℚ) * (offRateBuf.frameRate : ℚ) /
          ((offRateBuf.samples.take 44100).length : ℚ)) = [0, 11025 / 2] ∧
    ([0, (11025 : ℚ)] : List ℚ) ≠ [0, 11025 / 2] := by
  have hr : (offRateBuf.samples.take 44100).length = 4 := rfl
  have hfr : offRateBuf.frameRate = 22050 := rfl
  refine ⟨?_, ?_, by norm_num⟩
  · rw [spectrumPairs, if_neg (by decide), List.map_map]
    simp only [hr]
    norm_num [List.range_succ, fftfreqAt, Function.comp]
  · simp only [hr, hfr]
    norm_num [List.range_succ]

/-- C2 amended: for a nonempty buffer the spectrum plot pairs index
0 ≤ k < n / 2 with the frequency k * 44100 / n and the DFT magnitude of
the first n = min(len, 44100) samples, the sample rate being hardcoded to
44100 Hz rather than taken from the buffer. -/
theorem spectrum_structure_amended (a : Audio) (h : a.samples ≠ []) :
    spectrumPairs a =
      (List.range ((a.samples.take 44100).length / 2)).map
        (fun (k : ℕ) => ((k : ℚ) * 44100 / ((a.samples.take 44100).length : ℚ),
                   dftMag (a.samples.take 44100) k)) := by
  have hlen0 : a.samples.length ≠ 0 := fun hc => h (List.length_eq_zero.mp hc)
  have hn : (a.samples.take 44100).length ≠ 0 := by
    rw [List.length_take]
    have hl : 0 < a.samples.length := Nat.pos_of_ne_zero hlen0
    omega
  rw [spectrumPairs, if_neg hlen0]
  refine List.map_congr_left ?_
  intro k hk
  rw [List.mem_range] at hk
  have hk2 : k < ((a.samples.take 44100).length + 1) / 2 :=
    lt_of_lt_of_le hk (Nat.div_le_div_right (Nat.le_succ _))
  have hfk : fftfreqAt (a.samples.take 44100).length k =
      (k : ℚ) * 44100 / ((a.samples.take 44100).length : ℚ) := by
    rw [fftfreqAt, if_pos hk2]
    have hnq : ((a.samples.take 44100).length : ℚ) ≠ 0 := by exact_mod_cast hn
    push_cast
    field_simp
  rw [hfk]

/-- Witness for spectrum_structure_amended at the concrete nonempty
buffer shortBuf. -/
theorem spectrum_structure_witness :
    spectrumPairs shortBuf =
      (List.range ((shortBuf.samples.take 44100).length / 2)).map
        (fun (k : ℕ) => ((k : ℚ) * 44100 / ((shortBuf.samples.take 44100).length : ℚ),
                   dftMag (shortBuf.samples.take 44100) k)) :=
  spectrum_structure_amended shortBuf (by decide)

/-- C1: evaluation at the failing input.  app.py passes target_dBFS as the
pydub headroom argument, so normalizing loudBuf (one sample of 8192, peak
12 dB below full scale) to a target of -20 dBFS computes the gain toward
a peak of maxPossibleAmp * 10^(+1) and clips the sample to full scale
32767, whereas a peak at the claimed target would be
maxPossibleAmp * 10^(-1) = 3276.8. -/
theorem normalize_headroom_misuse_eval :
    apply_normalization loudBuf (-20) = { loudBuf with samples := [32767] } ∧
    (32767 : ℝ) ≠ (maxPossibleAmp loudBuf : ℝ) * db_to_float (-20) := by
  have hpeak : segMax loudBuf = 8192 := rfl
  have hmp : maxPossibleAmp loudBuf = 32768 := rfl
  have harg : (-(((-20 : ℚ) : ℝ))) = (20 : ℝ) := by push_cast; norm_num
  have hd20 : db_to_float (20 : ℝ) = 10 := by
    rw [db_to_float, show (20 : ℝ) / 20 = 1 by norm_num, Real.rpow_one]
  have hratio : (maxPossibleAmp loudBuf : ℝ) * db_to_float (-(((-20 : ℚ) : ℝ))) /
      (segMax loudBuf : ℝ) = 40 := by
    rw [harg, hd20, hmp, hpeak]
    norm_num
  have hrdb : db_to_float (ratio_to_db 40) = 40 := by
    rw [ratio_to_db, db_to_float,
      show (20 : ℝ) * Real.logb 10 40 / 20 = Real.logb 10 40 by ring]
    exact Real.rpow_logb (by norm_num) (by norm_num) (by norm_num)
  constructor
  · have hsamp : loudBuf.samples = [(8192 : ℤ)] := rfl
    have hwidth : loudBuf.sampleWidth = 2 := rfl
    rw [apply_normalization, normalize, if_neg (by rw [hpeak]; norm_num), hratio, apply_gain]
    congr 1
    rw [hsamp, List.map_singleton, hrdb]
    rw [show (((8192 : ℤ) : ℝ)) * 40 = 327680 by norm_num]
    rw [hwidth, fbound]
    rw [if_pos (by norm_num)]
    norm_num
  · rw [hmp, db_to_float, show ((-20 : ℝ)) / 20 = -1 by norm_num,
      show ((-1 : ℝ)) = ((-1 : ℤ) : ℝ) by norm_num, Real.rpow_intCast]
    norm_num

end AudioApp
